import Mathlib

/-!
Verification of the Cardinal query-execution core: a shallow embedding of
`plan_to_hints.py` (the plan-to-hint compiler), `batch_executor.py` (the
parallel benchmark orchestrator and its own hint builder), and the worker
timing-resolution logic, together with theorems settling the specification
claims about them.

Machine conventions of the embedding:
* Python `None`-able string/number fields become `Option String` / `Option ℚ`.
* Python truthiness (`if x:`, `a or b`) is modelled exactly: `None`, `""` and
  `0` are falsy; `a or b` returns `b` unchanged when `a` is falsy.
* A raised Python exception is modelled as `Except.error`.
* Timing numbers (Python floats used only for field selection, comparison
  with 0 and averaging of exact inputs in the claims at issue) are `ℚ`.
-/

namespace QueryExec

/-- Python `a or b` on optional strings: `None` and `""` are falsy,
the second operand is returned unchanged when the first is falsy. -/
def pyOrS : Option String → Option String → Option String
  | some s, b => if s = "" then b else some s
  | none, b => b

/-- Python truthiness filter for an optional string: `some ""` becomes `none`. -/
def strTruthy : Option String → Option String
  | some s => if s = "" then none else some s
  | none => none

/-- Python `if x:` on an optional string. -/
def isTruthyStr (o : Option String) : Bool :=
  match o with
  | some s => s ≠ ""
  | none => false

/-- Python `a or b` on optional numbers: `None` and `0` are falsy,
the second operand is returned unchanged when the first is falsy. -/
def pyOrQ : Option ℚ → Option ℚ → Option ℚ
  | some v, b => if v = 0 then b else some v
  | none, b => b

/-- Python truthiness filter for an optional number: `some 0` becomes `none`. -/
def ratTruthy : Option ℚ → Option ℚ
  | some v => if v = 0 then none else some v
  | none => none

/-- Does the character list start with the given pattern? -/
def startsWithChars : List Char → List Char → Bool
  | [], _ => true
  | _ :: _, [] => false
  | p :: ps, c :: cs => (p = c) && startsWithChars ps cs

/-- Does the character list contain the given pattern as a contiguous run? -/
def hasSubChars (pat : List Char) : List Char → Bool
  | [] => startsWithChars pat []
  | c :: cs => startsWithChars pat (c :: cs) || hasSubChars pat cs

/-- Python `pat in s` on strings: contiguous-substring test. -/
def strHasSub (s pat : String) : Bool :=
  hasSubChars pat.toList s.toList

/-- Python `s.replace(" ", "")`. -/
def removeSpaces (s : String) : String :=
  String.mk (s.toList.filter (fun c => c ≠ ' '))

/-!
The plan tree. A PostgreSQL EXPLAIN node is a dict whose recognized fields
are "Node Type", "Relation Name", "Relation", "Alias", "Index Name" and
"Plans" (the ordered children). An absent "Plans" key and an empty children
list behave identically in every traversal below, so both are `fnil`.
The children are a `PlanForest` (an inlined list) so that all recursions
and inductions below are plainly structural.
-/

mutual
inductive PlanNode : Type where
  | node (nodeType relName rel aliasName indexName : Option String)
         (children : PlanForest) : PlanNode
  deriving DecidableEq
inductive PlanForest : Type where
  | fnil : PlanForest
  | fcons (hd : PlanNode) (tl : PlanForest) : PlanForest
  deriving DecidableEq
end

/-- Field accessor: `node.get("Node Type")`. -/
def PlanNode.nodeType : PlanNode → Option String
  | .node nt _ _ _ _ _ => nt

/-- Field accessor: `node.get("Relation Name")`. -/
def PlanNode.relName : PlanNode → Option String
  | .node _ rn _ _ _ _ => rn

/-- Field accessor: `node.get("Relation")`. -/
def PlanNode.rel : PlanNode → Option String
  | .node _ _ r _ _ _ => r

/-- Field accessor: `node.get("Alias")`. -/
def PlanNode.aliasName : PlanNode → Option String
  | .node _ _ _ a _ _ => a

/-- Field accessor: `node.get("Index Name")`. -/
def PlanNode.indexName : PlanNode → Option String
  | .node _ _ _ _ ix _ => ix

/-- Field accessor: `node.get("Plans")` (with `[]` for an absent key). -/
def PlanNode.children : PlanNode → PlanForest
  | .node _ _ _ _ _ f => f

/-- Number of immediate children. -/
def PlanForest.length : PlanForest → Nat
  | .fnil => 0
  | .fcons _ tl => tl.length + 1

/-!
Embedding of `plan_to_hints.py` (class `PlanToHintConverter`).
-/

/-- The `SCAN_HINTS` table: plan node type to scan-hint name
(`dict.get`-style lookup). -/
def SCAN_HINTS (s : String) : Option String :=
  if s = "Seq Scan" then some "SeqScan"
  else if s = "Index Scan" then some "IndexScan"
  else if s = "Index Only Scan" then some "IndexOnlyScan"
  else if s = "Bitmap Heap Scan" then some "BitmapScan"
  else if s = "Bitmap Index Scan" then some "BitmapScan"
  else if s = "Tid Scan" then some "TidScan"
  else if s = "Tid Range Scan" then some "TidRangeScan"
  else none

/-- The `JOIN_HINTS` table: plan node type to join-hint name. -/
def JOIN_HINTS (s : String) : Option String :=
  if s = "Nested Loop" then some "NestLoop"
  else if s = "Hash Join" then some "HashJoin"
  else if s = "Merge Join" then some "MergeJoin"
  else none

/-- The converter's mutable state (`self.tables`, `self.scan_hints`,
`self.join_hints`, `self.join_order`, `self.index_hints`). -/
structure ConvState : Type where
  tables : List String
  scan_hints : List String
  join_hints : List String
  join_order : List String
  index_hints : List (String × String)
  deriving DecidableEq

/-- The state of a freshly constructed converter (`__init__`). -/
def convInit : ConvState := ⟨[], [], [], [], []⟩

/-- `reset`: every field is reassigned to a fresh empty list,
regardless of the previous state. -/
def resetConv (_ : ConvState) : ConvState := convInit

/-- `_get_table_alias`: `node.get("Alias") or node.get("Relation Name")`. -/
def get_table_alias (n : PlanNode) : Option String :=
  pyOrS n.aliasName n.relName

mutual
/-- `_traverse_plan`: recursively traverse the plan tree, appending to the
accumulated hint lists, and return the table aliases of the subtree.
Children are processed first; a scan node then appends its own scan hint
(and an index pair when an "Index Name" key is present, even an empty one)
and its own alias; a join node appends one join hint over the concatenated
child subtree tables when there are at least two child subtrees and at
least two such tables. A Python node that is an empty dict returns `[]`
untouched, which coincides with the `none`-fields case below. -/
def traverse_plan (st : ConvState) (n : PlanNode) : ConvState × List String :=
  match n with
  | .node nt rn _rel al ix f =>
    let res := traverse_children st f
    let st1 := res.1
    let lists := res.2
    let tablesInSubtree := lists.flatten
    let ntv := nt.getD ""
    match SCAN_HINTS ntv with
    | some h =>
      match strTruthy (pyOrS al rn) with
      | some t =>
        ({ st1 with
            scan_hints := st1.scan_hints ++ [h ++ "(" ++ t ++ ")"],
            index_hints := st1.index_hints ++
              (match ix with
               | some i => [(t, i)]
               | none => []) },
         tablesInSubtree ++ [t])
      | none => (st1, tablesInSubtree)
    | none =>
      match JOIN_HINTS ntv with
      | some h =>
        if 2 ≤ lists.length ∧ 2 ≤ tablesInSubtree.length then
          ({ st1 with
              join_hints := st1.join_hints ++
                [h ++ "(" ++ String.intercalate " " tablesInSubtree ++ ")"] },
           tablesInSubtree)
        else (st1, tablesInSubtree)
      | none => (st1, tablesInSubtree)

/-- The `for child in node["Plans"]` loop of `_traverse_plan`: thread the
state through the children left to right, collecting each child's subtree
tables (`child_tables_list`). -/
def traverse_children (st : ConvState) : PlanForest → ConvState × List (List String)
  | .fnil => (st, [])
  | .fcons c cs =>
    let res := traverse_plan st c
    let rest := traverse_children res.1 cs
    (rest.1, res.2 :: rest.2)
end

/-- The first-occurrence deduplication of `_build_hint_string`
(`seen_joins` accumulates the already-emitted join hints). -/
def dedupFirstAux (seen : List String) : List String → List String
  | [] => []
  | x :: xs => if x ∈ seen then dedupFirstAux seen xs
               else x :: dedupFirstAux (x :: seen) xs

/-- Deduplicate by exact string equality, keeping first occurrences. -/
def dedupFirst (l : List String) : List String :=
  dedupFirstAux [] l

/-- `_build_hint_string`: scan hints, then join hints deduplicated by exact
string equality, then index hints rendered as `IndexScan(table index)`;
the empty hint list renders as the empty string. -/
def build_hint_string (st : ConvState) : String :=
  let hints := st.scan_hints ++ dedupFirst st.join_hints ++
    st.index_hints.map (fun ti => "IndexScan(" ++ ti.1 ++ " " ++ ti.2 ++ ")")
  if hints = [] then "" else "/*+ " ++ String.intercalate " " hints ++ " */"

/-!
The wire payload shapes accepted by both hint builders: a serialized-text
form that is not valid JSON, a JSON array of entry dicts, or a single entry
dict. An entry dict either carries a top-level "Plan" key or is itself
treated as a bare plan node. (A serialized empty string is falsy wherever a
payload's truthiness is tested, and is also invalid JSON; both routes end
in the same observable behavior, so `malformed ""` represents it.)
-/

/-- One JSON object: a dict with a "Plan" key, or a plain dict without one. -/
inductive PlanEntry : Type where
  | withPlan (n : PlanNode) : PlanEntry
  | bare (n : PlanNode) : PlanEntry
  deriving DecidableEq

/-- The plan node an entry stands for once the "Plan" unwrapping of
`parse_plan` is applied (`plan_json["Plan"]` when the key exists,
otherwise the dict itself). -/
def PlanEntry.asPlan : PlanEntry → PlanNode
  | .withPlan n => n
  | .bare n => n

/-- A plan payload given to a hint builder. -/
inductive Payload : Type where
  | malformed (raw : String) : Payload
  | arr (entries : List PlanEntry) : Payload
  | obj (e : PlanEntry) : Payload
  deriving DecidableEq

/-- `PlanToHintConverter.parse_plan` with the converter state made explicit:
first `self.reset()`, then `json.loads` (which RAISES `json.JSONDecodeError`
on invalid text — there is no try/except in `parse_plan`), then the
list unwrapping `plan_json[0]` (an IndexError on an empty list), then the
"Plan" unwrapping, traversal and rendering. Returns the converter state
after the call together with the returned string (or the raised fault). -/
def parse_plan_st (st : ConvState) (p : Payload) : ConvState × Except String String :=
  let st0 := resetConv st
  match p with
  | .malformed _ => (st0, .error "json.JSONDecodeError")
  | .arr [] => (st0, .error "IndexError: list index out of range")
  | .arr (e :: _) =>
    let stf := (traverse_plan st0 e.asPlan).1
    (stf, .ok (build_hint_string stf))
  | .obj e =>
    let stf := (traverse_plan st0 e.asPlan).1
    (stf, .ok (build_hint_string stf))

/-- Module-level `plan_to_hints`: run `parse_plan` on a fresh converter. -/
def plan_to_hints (p : Payload) : Except String String :=
  (parse_plan_st convInit p).2

/-!
Embedding of `batch_executor.py`: the orchestrator's own hint builder
(`extract_tables_and_joins`, `plan_json_to_pg_hint`), the worker timing
resolution (`worker_execute`), and the dispatch/collection loop of
`process_csv`.
-/

/-- `safe_relation_name`:
`node.get("Relation Name") or node.get("Relation") or node.get("Alias")`. -/
def safe_relation_name (n : PlanNode) : Option String :=
  pyOrS n.relName (pyOrS n.rel n.aliasName)

mutual
/-- `find_rel`: the first truthy `safe_relation_name` (inlined on the
destructured fields) found by a preorder depth-first search of the subtree
(used for a join's two operand slots). -/
def find_rel : PlanNode → Option String
  | .node _nt rn rel al _ix f =>
    match strTruthy (pyOrS rn (pyOrS rel al)) with
    | some r => some r
    | none => find_rel_forest f

/-- The `for c in n.get("Plans", [])` loop of `find_rel`. -/
def find_rel_forest : PlanForest → Option String
  | .fnil => none
  | .fcons c cs =>
    match find_rel c with
    | some r => some r
    | none => find_rel_forest cs
end

/-- The accumulator of `extract_tables_and_joins`: the scanned relation
names (`scans`, a Python `set` — modelled as an insertion-ordered list
without duplicates; no claim settled below depends on the unspecified
iteration order of a Python `set`) and the join triples
(`joins`: space-stripped node type, left name, right name). -/
structure GatherAcc : Type where
  scans : List String
  joins : List (String × String × String)
  deriving DecidableEq

mutual
/-- `gather`: preorder walk. A node whose type contains "Scan" adds its
truthy `safe_relation_name` to the scan set; a node whose type contains
"Join" appends a join triple — the operand slots come from `find_rel` on
the first two children when there are at least two, and are "?" otherwise;
then the children are walked in order. -/
def gather (acc : GatherAcc) (n : PlanNode) : GatherAcc :=
  match n with
  | .node nt rn rel al _ix f =>
    let ntv := nt.getD ""
    let acc1 :=
      if strHasSub ntv "Scan" then
        match strTruthy (pyOrS rn (pyOrS rel al)) with
        | some r =>
          { acc with scans := if r ∈ acc.scans then acc.scans else acc.scans ++ [r] }
        | none => acc
      else acc
    let acc2 :=
      if strHasSub ntv "Join" then
        let lr :=
          match f with
          | .fcons p0 (.fcons p1 _) => (find_rel p0, find_rel p1)
          | _ => (none, none)
        { acc1 with joins := acc1.joins ++
            [(removeSpaces ntv, lr.1.getD "?", lr.2.getD "?")] }
      else acc1
    gather_forest acc2 f

/-- The `for child in node.get("Plans", [])` loop of `gather`. -/
def gather_forest (acc : GatherAcc) : PlanForest → GatherAcc
  | .fnil => acc
  | .fcons c cs => gather_forest (gather acc c) cs
end

/-- The `for entry in plan` loop of `extract_tables_and_joins` on a JSON
array: only entries that are dicts carrying a "Plan" key are gathered. -/
def gather_entries (acc : GatherAcc) : List PlanEntry → GatherAcc
  | [] => acc
  | .withPlan n :: es => gather_entries (gather acc n) es
  | .bare _ :: es => gather_entries acc es

/-- `extract_tables_and_joins` on an already-deserialized payload: an array
gathers every entry with a "Plan" key; a dict gathers its "Plan" value when
the key exists and the dict itself otherwise. (Never reached on a
malformed payload — `plan_json_to_pg_hint` returns early there.) -/
def extract_tables_and_joins : Payload → GatherAcc
  | .malformed _ => ⟨[], []⟩
  | .arr entries => gather_entries ⟨[], []⟩ entries
  | .obj e => gather ⟨[], []⟩ e.asPlan

/-- Render one join triple of the batch builder: the stored space-stripped
node type selects `HashJoin`/`MergeJoin`/`NestLoop` by substring, any other
type is used verbatim. -/
def join_token_of (j : String × String × String) : String :=
  let name :=
    if strHasSub j.1 "Hash" then "HashJoin"
    else if strHasSub j.1 "Merge" then "MergeJoin"
    else if strHasSub j.1 "Nested" then "NestLoop"
    else j.1
  name ++ "(" ++ j.2.1 ++ " " ++ j.2.2 ++ ")"

/-- The token list built by `plan_json_to_pg_hint`: a `SeqScan(s)` token
per scanned relation (whatever the true scan kind was), then a join token
per entry of `joins[:6]` — at most the first six discovered joins. -/
def batch_tokens (p : Payload) : List String :=
  (extract_tables_and_joins p).scans.map (fun s => "SeqScan(" ++ s ++ ")") ++
    ((extract_tables_and_joins p).joins.take 6).map join_token_of

/-- `plan_json_to_pg_hint`: a payload whose deserialization raises is
caught and becomes the empty string; otherwise the tokens are rendered,
an empty token list again giving the empty string. -/
def plan_json_to_pg_hint (p : Payload) : String :=
  match p with
  | .malformed _ => ""
  | _ =>
    if batch_tokens p = [] then ""
    else "/*+ " ++ String.intercalate " " (batch_tokens p) ++ " */"

/-!
`worker_execute`: hint derivation and timing-field resolution.
-/

/-- The dict a query execution returns, restricted to the fields
`worker_execute` reads. -/
structure ExecResult : Type where
  error : Option String
  actual_total_time : Option ℚ
  execution_time : Option ℚ
  execution_time_ms : Option ℚ
  deriving DecidableEq

/-- The `or`-chain of `worker_execute`:
`res.get("actual_total_time") or res.get("execution_time") or
res.get("execution_time_ms")`. -/
def resolveTiming (r : ExecResult) : Option ℚ :=
  pyOrQ r.actual_total_time (pyOrQ r.execution_time r.execution_time_ms)

/-- The single-run hinted branch of `worker_execute`: an adapter result with
a truthy "error" is returned as that error; otherwise the timing is the
`or`-chain value, `None` there being the fault "No timing value found". -/
def worker_single_hinted (r : ExecResult) : Except String ℚ :=
  if isTruthyStr r.error then .error (r.error.getD "")
  else
    match resolveTiming r with
    | none => .error "No timing value found"
    | some t => .ok t

/-- The directive `worker_execute` applies:
`plan_json_to_pg_hint(plan_json) if (use_hints and plan_json) else ""`.
A present payload is truthy except for the empty string, and the empty
string maps through `plan_json_to_pg_hint` to `""` as well, so absence and
falsiness coincide observably (`Payload.malformed ""` covers the latter). -/
def worker_applied_hint (use_hints : Bool) (planPayload : Option Payload) : String :=
  match use_hints, planPayload with
  | true, some p => plan_json_to_pg_hint p
  | _, _ => ""

/-!
The collection loop of `process_csv`.
-/

/-- The dict a worker future resolves to, restricted to the fields the
collection loop reads: `res.get("error")` and `res.get("execution_time_ms")`. -/
structure WorkerRet : Type where
  error : Option String
  execution_time_ms : Option ℚ
  deriving DecidableEq

/-- How one future ends: a returned dict, or a worker-level crash
(`fut.result()` raising). -/
inductive FutOutcome : Type where
  | done (r : WorkerRet) : FutOutcome
  | crashed (msg : String) : FutOutcome
  deriving DecidableEq

/-- The cell written for one collected future: a crash writes `pd.NA`; a
returned dict with a truthy "error" writes `pd.NA`; otherwise the dict's
`execution_time_ms` value is written. -/
def collectCell : FutOutcome → Option ℚ
  | .crashed _ => none
  | .done r => if isTruthyStr r.error then none else r.execution_time_ms

/-- The `for fut in as_completed(futures)` loop: fold the completions, in
completion order, over the output column (initially all `pd.NA`), writing
each cell at the completed future's row index. -/
def runCollect (out : Nat → Option ℚ) : List (Nat × FutOutcome) → (Nat → Option ℚ)
  | [] => out
  | (i, o) :: rest =>
    runCollect (fun j => if j = i then collectCell o else out j) rest

/-- The pre-dispatch control flow of `process_csv` on a table with columns
`cols` and `nrows` rows: the explicit guard raises
`ValueError("CSV must have a 'query' column")` when the "query" column is
absent; after it, building the futures dict evaluates `row["sql_text"]`
for the first row BEFORE any `submit` happens, so a table with at least
one row and no "sql_text" column raises a `KeyError` with zero tasks
dispatched. On success every row is submitted. -/
def process_csv_validate (cols : List String) (nrows : Nat) : Except String Nat :=
  if "query" ∉ cols then .error "ValueError: CSV must have a \x27query\x27 column"
  else if 0 < nrows ∧ "sql_text" ∉ cols then .error "KeyError: \x27sql_text\x27"
  else .ok nrows

/-!
A state-free characterization of the converter's traversal, used to phrase
the claims about discovery order and join-operand collection. `hintContrib`
computes, bottom-up and without threaded state, the scan/join/index hints a
subtree contributes (in discovery order) and the subtree's table aliases;
the accumulation theorem below proves `traverse_plan` appends exactly
these contributions to whatever state it starts from.
-/

/-- The hints one subtree contributes, each list in discovery order. -/
structure Contrib : Type where
  scans : List String
  joins : List String
  indexes : List (String × String)
  deriving DecidableEq

/-- Concatenate two contributions componentwise. -/
def Contrib.app (a b : Contrib) : Contrib :=
  ⟨a.scans ++ b.scans, a.joins ++ b.joins, a.indexes ++ b.indexes⟩

mutual
/-- Contribution and table-alias list of one subtree. -/
def hintContrib : PlanNode → Contrib × List String
  | .node nt rn _rel al ix f =>
    let resF := hintContribF f
    let cf := resF.1
    let lists := resF.2
    let childTables := lists.flatten
    let ntv := nt.getD ""
    match SCAN_HINTS ntv with
    | some h =>
      match strTruthy (pyOrS al rn) with
      | some t =>
        (⟨cf.scans ++ [h ++ "(" ++ t ++ ")"], cf.joins,
          cf.indexes ++ (match ix with | some i => [(t, i)] | none => [])⟩,
         childTables ++ [t])
      | none => (cf, childTables)
    | none =>
      match JOIN_HINTS ntv with
      | some h =>
        if 2 ≤ lists.length ∧ 2 ≤ childTables.length then
          (⟨cf.scans,
            cf.joins ++ [h ++ "(" ++ String.intercalate " " childTables ++ ")"],
            cf.indexes⟩,
           childTables)
        else (cf, childTables)
      | none => (cf, childTables)

/-- Combined contribution of a forest of subtrees, children in order, and
the per-child table-alias lists. -/
def hintContribF : PlanForest → Contrib × List (List String)
  | .fnil => (⟨[], [], []⟩, [])
  | .fcons n f =>
    let a := hintContrib n
    let b := hintContribF f
    (a.1.app b.1, a.2 :: b.2)
end

/-- How the worker then runs the query (single-run case): a truthy directive
selects `execute_with_hints(query, hints)`, a falsy one `execute_query(query)`. -/
inductive ExecMode : Type where
  | hinted (directive : String) : ExecMode
  | unhinted : ExecMode
  deriving DecidableEq

/-- `if hints: ... else ...` of `worker_execute` on the derived directive. -/
def worker_exec_mode (use_hints : Bool) (planPayload : Option Payload) : ExecMode :=
  let hints := worker_applied_hint use_hints planPayload
  if hints = "" then .unhinted else .hinted hints

/-- The directive the converter compiles for one canonical plan tree
(the traversal plus rendering part of `parse_plan`, after unwrapping). -/
def plan_tree_to_hints (n : PlanNode) : String :=
  build_hint_string (traverse_plan convInit n).1

/-!
Concrete inputs used by counterexamples and witnesses.
-/

/-- An index-scan node carrying a relation name, an alias and an index name. -/
def cexIndexScanNode : PlanNode :=
  .node (some "Index Scan") (some "t") none (some "a") (some "i") .fnil

/-- A payload `{"Plan": {index-scan}}`. -/
def cexPayload : Payload := .obj (.withPlan cexIndexScanNode)

/-- A sequential scan of table `ta` aliased `a`. -/
def scanNodeA : PlanNode :=
  .node (some "Seq Scan") (some "ta") none (some "a") none .fnil

/-- A sequential scan of table `tb` aliased `b`. -/
def scanNodeB : PlanNode :=
  .node (some "Seq Scan") (some "tb") none (some "b") none .fnil

/-- The two scans as a two-child forest. -/
def abForest : PlanForest := .fcons scanNodeA (.fcons scanNodeB .fnil)

/-- A childless, nameless join node (contributes a `(? ?)` join triple in
the batch builder). -/
def joinChildless : PlanNode :=
  .node (some "Merge Join") none none none none .fnil

/-- A forest of `n` copies of `joinChildless`. -/
def joinForest : Nat → PlanForest
  | 0 => .fnil
  | n + 1 => .fcons joinChildless (joinForest n)

/-- A payload whose plan is a join root over `n` childless joins:
`n + 1` join nodes in total, no scans. -/
def cexJoins (n : Nat) : Payload :=
  .obj (.withPlan (.node (some "Hash Join") none none none none (joinForest n)))

/-- Two tasks: row 0 succeeds with 7 ms, row 1 crashes. -/
def c6tasks : List (Nat × FutOutcome) :=
  [(0, .done ⟨none, some 7⟩), (1, .crashed "boom")]

/-- The same two futures, completing in the opposite order. -/
def c6comps : List (Nat × FutOutcome) :=
  [(1, .crashed "boom"), (0, .done ⟨none, some 7⟩)]

/-- Three tasks: rows 0 and 2 succeed, row 1 crashes. -/
def c7tasks : List (Nat × FutOutcome) :=
  [(0, .done ⟨none, some 2⟩), (1, .crashed "x"), (2, .done ⟨none, some 9⟩)]

/-- The same three futures in a different completion order. -/
def c7comps : List (Nat × FutOutcome) :=
  [(2, .done ⟨none, some 9⟩), (0, .done ⟨none, some 2⟩), (1, .crashed "x")]

/-!
Theorems. First the general lemmas shared by the claims, then one theorem
per claim (with its witness or counterexample where required).
-/

/-- One table-alias list is collected per immediate child. -/
theorem hintContribF_length : (f : PlanForest) → (hintContribF f).2.length = f.length
  | .fnil => rfl
  | .fcons n f => by
    simp [hintContribF, PlanForest.length, hintContribF_length f]

mutual
/-- `traverse_plan` appends exactly the subtree's contribution to the
incoming state and returns the subtree's table aliases. -/
theorem traverse_plan_spec (st : ConvState) (n : PlanNode) :
    traverse_plan st n =
      ({ st with
          scan_hints := st.scan_hints ++ (hintContrib n).1.scans,
          join_hints := st.join_hints ++ (hintContrib n).1.joins,
          index_hints := st.index_hints ++ (hintContrib n).1.indexes },
       (hintContrib n).2) := by
  cases n with
  | node nt rn rel al ix f =>
    have hf := traverse_children_spec st f
    cases hs : SCAN_HINTS (nt.getD "") with
    | some h =>
      cases ht : strTruthy (pyOrS al rn) with
      | some t => simp [traverse_plan, hintContrib, hf, hs, ht]
      | none => simp [traverse_plan, hintContrib, hf, hs, ht]
    | none =>
      cases hj : JOIN_HINTS (nt.getD "") with
      | some h =>
        simp only [traverse_plan, hintContrib, hf, hs, hj]
        split <;> simp
      | none => simp [traverse_plan, hintContrib, hf, hs, hj]

/-- `traverse_children` appends exactly the forest's combined contribution
and returns the list of per-child table-alias lists. -/
theorem traverse_children_spec (st : ConvState) (f : PlanForest) :
    traverse_children st f =
      ({ st with
          scan_hints := st.scan_hints ++ (hintContribF f).1.scans,
          join_hints := st.join_hints ++ (hintContribF f).1.joins,
          index_hints := st.index_hints ++ (hintContribF f).1.indexes },
       (hintContribF f).2) := by
  cases f with
  | fnil => simp [traverse_children, hintContribF]
  | fcons c cs =>
    have hc := traverse_plan_spec st c
    simp only [traverse_children, hintContribF, hc]
    have hcs := traverse_children_spec
      ({ st with
          scan_hints := st.scan_hints ++ (hintContrib c).1.scans,
          join_hints := st.join_hints ++ (hintContrib c).1.joins,
          index_hints := st.index_hints ++ (hintContrib c).1.indexes }) cs
    simp only [hcs, Contrib.app]
    simp [List.append_assoc]
end

/-- A row index that never completes keeps its initial output cell. -/
theorem runCollect_of_notMem (l : List (Nat × FutOutcome)) :
    ∀ (out : Nat → Option ℚ) (i : Nat), i ∉ l.map Prod.fst →
      runCollect out l i = out i := by
  induction l with
  | nil => intro out i _; rfl
  | cons p rest ih =>
    intro out i h
    obtain ⟨j, o⟩ := p
    have hij : i ≠ j := fun e => h (by simp [e])
    have hrest : i ∉ rest.map Prod.fst := fun hm => h (by simp [hm])
    rw [runCollect, ih _ i hrest]
    simp [hij]

/-- With pairwise-distinct row indices, the final cell of a completed row
is exactly its own outcome's cell, whatever the completion order around it. -/
theorem runCollect_of_mem (l : List (Nat × FutOutcome)) :
    ∀ (out : Nat → Option ℚ) (i : Nat) (o : FutOutcome),
      (l.map Prod.fst).Nodup → (i, o) ∈ l →
      runCollect out l i = collectCell o := by
  induction l with
  | nil => intro _ _ _ _ hm; cases hm
  | cons p rest ih =>
    intro out i o hnd hm
    obtain ⟨j, o2⟩ := p
    rw [List.map_cons, List.nodup_cons] at hnd
    rw [runCollect]
    rcases List.mem_cons.mp hm with heq | htl
    · rw [Prod.mk.injEq] at heq
      obtain ⟨rfl, rfl⟩ := heq
      rw [runCollect_of_notMem rest _ i hnd.1]
      simp
    · exact ih _ i o hnd.2 htl

/-- A node type recognized as a join is not recognized as a scan. -/
theorem scan_hints_none_of_join (s hname : String)
    (hj : JOIN_HINTS s = some hname) : SCAN_HINTS s = none := by
  unfold JOIN_HINTS at hj
  split_ifs at hj with h1 h2 h3
  · subst h1; rfl
  · subst h2; rfl
  · subst h3; rfl

/-- `plan_json_to_pg_hint` always renders `batch_tokens` (on a malformed
payload the token list is empty and both routes give `""`). -/
theorem plan_json_to_pg_hint_render (p : Payload) :
    plan_json_to_pg_hint p =
      (if batch_tokens p = [] then ""
       else "/*+ " ++ String.intercalate " " (batch_tokens p) ++ " */") := by
  cases p with
  | malformed raw => rfl
  | arr entries => rfl
  | obj e => rfl

/-- C1, counterexample: for the payload `{"Plan": {"Node Type": "Index Scan",
"Relation Name": "t", "Alias": "a", "Index Name": "i"}}` with hints
requested, the orchestrator applies `/*+ SeqScan(t) */` (its own builder:
every scan kind becomes SeqScan, relation name preferred over alias) while
`parse_plan` compiles `/*+ IndexScan(a) IndexScan(a i) */` — the two
directives are not token-for-token equal. -/
theorem c1_counterexample :
    worker_applied_hint true (some cexPayload) = "/*+ SeqScan(t) */" ∧
    plan_to_hints cexPayload = Except.ok "/*+ IndexScan(a) IndexScan(a i) */" ∧
    worker_applied_hint true (some cexPayload) ≠ "/*+ IndexScan(a) IndexScan(a i) */" := by
  refine ⟨rfl, rfl, ?_⟩
  decide

/-- C1, amended: for every row with hints requested and a plan payload
present, the directive the orchestrator applies is the one its own builder
`plan_json_to_pg_hint` produces for that payload — not the
`parse_plan` directive — and every token of it is either a `SeqScan(name)`
token (whatever the true scan kind was) or one of the first six join
tokens. -/
theorem c1_applied_directive (p : Payload) :
    worker_applied_hint true (some p) = plan_json_to_pg_hint p ∧
    ∀ t ∈ batch_tokens p,
      (∃ s, t = "SeqScan(" ++ s ++ ")") ∨
      ∃ j ∈ (extract_tables_and_joins p).joins.take 6, t = join_token_of j := by
  refine ⟨rfl, ?_⟩
  intro t ht
  unfold batch_tokens at ht
  rcases List.mem_append.mp ht with hs | hj
  · rcases List.mem_map.mp hs with ⟨s, _, rfl⟩
    exact Or.inl ⟨s, rfl⟩
  · rcases List.mem_map.mp hj with ⟨j, hjm, rfl⟩
    exact Or.inr ⟨j, hjm, rfl⟩

/-- C1, witness for the amended theorem at the concrete index-scan payload
and its one token. -/
theorem c1_applied_directive_witness :
    worker_applied_hint true (some cexPayload) = plan_json_to_pg_hint cexPayload ∧
    ((∃ s, "SeqScan(t)" = "SeqScan(" ++ s ++ ")") ∨
      ∃ j ∈ (extract_tables_and_joins cexPayload).joins.take 6,
        "SeqScan(t)" = join_token_of j) := by
  have h := c1_applied_directive cexPayload
  exact ⟨h.1, h.2 "SeqScan(t)" (by decide)⟩

/-- C2: a join node (nested-loop, hash-join or merge-join) with at least two
immediate child subtrees together containing at least two table aliases
appends exactly one join hint, whose operand list is the concatenation of
ALL table aliases found anywhere under each child subtree, children in
order; with fewer child subtrees or fewer combined tables it appends none. -/
theorem c2_join_operand_collection (st : ConvState)
    (nt rn rel al ix : Option String) (f : PlanForest) (hname : String)
    (hj : JOIN_HINTS (nt.getD "") = some hname) :
    (traverse_plan st (.node nt rn rel al ix f)).1.join_hints =
      st.join_hints ++ (hintContribF f).1.joins ++
        (if 2 ≤ f.length ∧ 2 ≤ (hintContribF f).2.flatten.length
         then [hname ++ "(" ++ String.intercalate " " (hintContribF f).2.flatten ++ ")"]
         else []) := by
  have hsc : SCAN_HINTS (nt.getD "") = none := scan_hints_none_of_join _ _ hj
  rw [traverse_plan_spec]
  simp only [hintContrib, hsc, hj, hintContribF_length]
  split <;> simp [List.append_assoc]

/-- C2, witness: a hash join over sequential scans of aliases `a` and `b`
appends exactly `HashJoin(a b)`. -/
theorem c2_join_operand_collection_witness :
    (traverse_plan convInit
        (.node (some "Hash Join") none none none none abForest)).1.join_hints =
      ["HashJoin(a b)"] := by
  have h := c2_join_operand_collection convInit (some "Hash Join")
    none none none none abForest "HashJoin" (by decide)
  rw [h]
  decide

/-- C3, counterexample: on a payload that is not valid structured data,
`parse_plan` does NOT return a distinguishable unparseable result — the
uncaught `json.loads` fault propagates (modelled as `Except.error`). -/
theorem c3_counterexample :
    (parse_plan_st convInit (.malformed "not json")).2 =
      Except.error "json.JSONDecodeError" := rfl

/-- C3, amended: `parse_plan` raises on a payload that is not valid
structured data; the batch path's own builder `plan_json_to_pg_hint`
catches the deserialization fault and returns the empty directive, so a
`use_hints` row carrying such a payload still executes — unhinted — rather
than erroring or aborting the batch. -/
theorem c3_malformed_payload (raw : String) (use_hints : Bool) :
    (parse_plan_st convInit (.malformed raw)).2 =
      Except.error "json.JSONDecodeError" ∧
    plan_json_to_pg_hint (.malformed raw) = "" ∧
    worker_applied_hint use_hints (some (.malformed raw)) = "" ∧
    worker_exec_mode use_hints (some (.malformed raw)) = .unhinted := by
  refine ⟨rfl, rfl, ?_, ?_⟩ <;> cases use_hints <;> rfl

/-- C4, counterexample: with `actual_total_time = 0` (present and non-null)
and `execution_time = 5`, the first non-null field is `actual_total_time`,
yet the worker resolves the timing to `5`: Python `or` skips the zero. -/
theorem c4_counterexample :
    (ExecResult.mk none (some 0) (some 5) none).actual_total_time = some 0 ∧
    worker_single_hinted ⟨none, some 0, some 5, none⟩ = Except.ok 5 ∧
    worker_single_hinted ⟨none, some 0, some 5, none⟩ ≠ Except.ok 0 := by
  refine ⟨rfl, rfl, ?_⟩
  have h5 : worker_single_hinted ⟨none, some 0, some 5, none⟩ = Except.ok 5 := rfl
  rw [h5]
  intro h
  injection h with h
  exact absurd h (by norm_num)

/-- C4, amended: the timing is the first of `actual_total_time`,
`execution_time`, `execution_time_ms` that is TRUTHY (non-null and
non-zero); when none is truthy, a present (necessarily zero)
`execution_time_ms` is still returned, and only when it too is null does
the task fail with "No timing value found". -/
theorem c4_timing_resolution (r : ExecResult)
    (herr : isTruthyStr r.error = false) :
    worker_single_hinted r =
      (match ratTruthy r.actual_total_time with
       | some t => Except.ok t
       | none =>
         match ratTruthy r.execution_time with
         | some t => Except.ok t
         | none =>
           match r.execution_time_ms with
           | some t => Except.ok t
           | none => Except.error "No timing value found") := by
  obtain ⟨e, att, et, ems⟩ := r
  have he : isTruthyStr e = false := herr
  cases att with
  | none =>
    cases et with
    | none =>
      cases ems <;>
        simp [worker_single_hinted, resolveTiming, pyOrQ, ratTruthy, he]
    | some w =>
      rcases eq_or_ne w 0 with rfl | hw
      · cases ems <;>
          simp [worker_single_hinted, resolveTiming, pyOrQ, ratTruthy, he]
      · cases ems <;>
          simp [worker_single_hinted, resolveTiming, pyOrQ, ratTruthy, he, hw]
  | some v =>
    rcases eq_or_ne v 0 with rfl | hv
    · cases et with
      | none =>
        cases ems <;>
          simp [worker_single_hinted, resolveTiming, pyOrQ, ratTruthy, he]
      | some w =>
        rcases eq_or_ne w 0 with rfl | hw
        · cases ems <;>
            simp [worker_single_hinted, resolveTiming, pyOrQ, ratTruthy, he]
        · cases ems <;>
            simp [worker_single_hinted, resolveTiming, pyOrQ, ratTruthy, he, hw]
    · simp [worker_single_hinted, resolveTiming, pyOrQ, ratTruthy, he, hv]

/-- C4, witness: `actual_total_time = 0`, no `execution_time`,
`execution_time_ms = 3` resolves to `3`. -/
theorem c4_timing_resolution_witness :
    worker_single_hinted ⟨none, some 0, none, some 3⟩ = Except.ok 3 := by
  have h := c4_timing_resolution ⟨none, some 0, none, some 3⟩ rfl
  rw [h]
  rfl

/-- C5: evaluation of the pre-dispatch control flow at the failing inputs.
The guard validates the column named "query" (as the module docstring
documents) but dispatch reads `row["sql_text"]`: a one-row table with only
the documented "query" column passes the guard and then raises `KeyError`
with zero rows dispatched, and a one-row table with only "sql_text" — the
column dispatch actually reads — aborts on the guard instead of
dispatching every row. Only a table carrying BOTH columns dispatches. -/
theorem c5_column_mismatch :
    process_csv_validate ["query"] 1 = Except.error "KeyError: \x27sql_text\x27" ∧
    process_csv_validate ["sql_text"] 1 =
      Except.error "ValueError: CSV must have a \x27query\x27 column" ∧
    process_csv_validate ["query", "sql_text"] 3 = Except.ok 3 :=
  ⟨rfl, rfl, rfl⟩

/-- C6: with pairwise-distinct row indices, for EVERY completion order
(any permutation of the tasks), each row's result lands in the output cell
identified solely by its row index, and rows never submitted keep the
initial null marker. -/
theorem c6_row_index_write (tasks comps : List (Nat × FutOutcome))
    (hnd : (tasks.map Prod.fst).Nodup) (hperm : comps.Perm tasks) :
    (∀ i o, (i, o) ∈ tasks → runCollect (fun _ => none) comps i = collectCell o) ∧
    (∀ i, i ∉ tasks.map Prod.fst → runCollect (fun _ => none) comps i = none) := by
  have hndc : (comps.map Prod.fst).Nodup := (hperm.map Prod.fst).nodup_iff.mpr hnd
  constructor
  · intro i o hm
    exact runCollect_of_mem comps _ i o hndc (hperm.mem_iff.mpr hm)
  · intro i hi
    refine runCollect_of_notMem comps _ i ?_
    intro hc
    exact hi ((hperm.map Prod.fst).mem_iff.mp hc)

/-- C6, witness: two rows completing in reverse order still write by row
index. -/
theorem c6_row_index_write_witness :
    runCollect (fun _ => none) c6comps 0 = some 7 ∧
    runCollect (fun _ => none) c6comps 1 = none := by
  have h := c6_row_index_write c6tasks c6comps (by decide) (by decide)
  exact ⟨(h.1 0 (.done ⟨none, some 7⟩) (by decide)).trans rfl,
    (h.1 1 (.crashed "boom") (by decide)).trans rfl⟩

/-- C7: an uncaught worker-level fault while collecting row `k` marks only
row `k` as failed (null cell); every other row of the batch still receives
its own independent result, for every completion order, and the collection
fold is total — the run completes. -/
theorem c7_crash_isolation (tasks comps : List (Nat × FutOutcome))
    (k : Nat) (msg : String)
    (hnd : (tasks.map Prod.fst).Nodup) (hperm : comps.Perm tasks)
    (hk : (k, FutOutcome.crashed msg) ∈ tasks) :
    runCollect (fun _ => none) comps k = none ∧
    ∀ i o, (i, o) ∈ tasks → i ≠ k →
      runCollect (fun _ => none) comps i = collectCell o := by
  have hndc : (comps.map Prod.fst).Nodup := (hperm.map Prod.fst).nodup_iff.mpr hnd
  refine ⟨?_, ?_⟩
  · exact (runCollect_of_mem comps _ k _ hndc (hperm.mem_iff.mpr hk)).trans rfl
  · intro i o hm _
    exact runCollect_of_mem comps _ i o hndc (hperm.mem_iff.mpr hm)

/-- C7, witness: row 1 crashes; rows 0 and 2 still produce their own
results. -/
theorem c7_crash_isolation_witness :
    runCollect (fun _ => none) c7comps 1 = none ∧
    runCollect (fun _ => none) c7comps 0 = some 2 ∧
    runCollect (fun _ => none) c7comps 2 = some 9 := by
  have h := c7_crash_isolation c7tasks c7comps 1 "x" (by decide) (by decide)
    (by decide)
  exact ⟨h.1,
    (h.2 0 (.done ⟨none, some 2⟩) (by decide) (by decide)).trans rfl,
    (h.2 2 (.done ⟨none, some 9⟩) (by decide) (by decide)).trans rfl⟩

/-- C8: for every canonical plan tree, the compiled directive renders all
scan tokens in discovery order, then the join tokens in discovery order
deduplicated by exact rendered-string equality with first discovery kept,
then all index tokens in discovery order; an empty token list renders as
the empty string and a non-empty one as "/*+ " ++ tokens ++ " */". -/
theorem c8_rendering (n : PlanNode) :
    plan_to_hints (.obj (.withPlan n)) = Except.ok (plan_tree_to_hints n) ∧
    plan_tree_to_hints n =
      (let tokens := (hintContrib n).1.scans ++ dedupFirst (hintContrib n).1.joins ++
          (hintContrib n).1.indexes.map
            (fun ti => "IndexScan(" ++ ti.1 ++ " " ++ ti.2 ++ ")")
       if tokens = [] then ""
       else "/*+ " ++ String.intercalate " " tokens ++ " */") := by
  refine ⟨rfl, ?_⟩
  unfold plan_tree_to_hints
  rw [traverse_plan_spec]
  simp [build_hint_string, convInit]

/-- C9: compiling the same payload twice — a second `parse_plan` call on
the converter state left by the first, or calls on converters in any two
states (in particular fresh ones) — yields identical results, because
`parse_plan` begins with `reset`. -/
theorem c9_idempotence (st st2 : ConvState) (p : Payload) :
    (parse_plan_st (parse_plan_st st p).1 p).2 = (parse_plan_st st p).2 ∧
    (parse_plan_st st p).2 = (parse_plan_st st2 p).2 := by
  have key : ∀ s s2 : ConvState, parse_plan_st s p = parse_plan_st s2 p := by
    intro s s2
    cases p with
    | malformed raw => rfl
    | arr es => cases es <;> rfl
    | obj e => rfl
  exact ⟨congrArg Prod.snd (key _ _), congrArg Prod.snd (key _ _)⟩

/-- C10: the token list of the batch builder's directive holds one scan
token per scanned relation plus `min 6` join tokens — joins discovered
after the first six contribute nothing: any payload agreeing on the scans
and on the first six join triples compiles to the same directive. -/
theorem c10_join_token_cap (p : Payload) :
    (batch_tokens p).length =
      (extract_tables_and_joins p).scans.length +
        min 6 (extract_tables_and_joins p).joins.length ∧
    ∀ q : Payload,
      (extract_tables_and_joins q).scans = (extract_tables_and_joins p).scans →
      (extract_tables_and_joins q).joins.take 6 =
        (extract_tables_and_joins p).joins.take 6 →
      plan_json_to_pg_hint q = plan_json_to_pg_hint p := by
  constructor
  · simp [batch_tokens]
  · intro q h1 h2
    have hbt : batch_tokens q = batch_tokens p := by
      unfold batch_tokens
      rw [h1, h2]
    rw [plan_json_to_pg_hint_render, plan_json_to_pg_hint_render, hbt]

/-- C10, witness: a plan with eight join nodes (root plus seven children)
compiles to the same directive as one with seven, and the seven-join plan's
directive holds exactly six join tokens. -/
theorem c10_join_token_cap_witness :
    plan_json_to_pg_hint (cexJoins 7) = plan_json_to_pg_hint (cexJoins 6) ∧
    (batch_tokens (cexJoins 6)).length = 6 := by
  have h := c10_join_token_cap (cexJoins 6)
  refine ⟨h.2 (cexJoins 7) (by decide) (by decide), ?_⟩
  rw [h.1]
  decide

end QueryExec
